import Mathlib

/-!
Verification of the core data layer of a simulation game (entity-component
store plus world-state calendar), shallowly embedded from the Python sources
`src/core/component.py`, `src/core/entity.py` and `src/core/game_state.py`.

Modelling conventions:
* Python `dict`s are association lists with first-match lookup; `dictSet`
  overwrites in place (keeping position) or appends a new key at the end,
  matching CPython's insertion-order semantics.
* Python `int` is `Int` (entity ids, which are generated from the positive
  counter `Entity._next_id`, are `Nat`); Python `float` is `Rat`.
* JSON values are modelled by `JVal`.  Fields are read at their documented
  types: `data.get(key, default)` yields the default when the key is absent
  (or, in this typed model, when the stored value has an unexpected shape).
* The global counter `Entity._next_id` is threaded explicitly as a `Nat`
  argument/result of the operations that read or advance it.
-/

namespace Game

/-- First-match lookup in an association list, modelling Python `d.get(k)` /
`k in d`. -/
def dictGet {κ α : Type} [DecidableEq κ] : List (κ × α) → κ → Option α
  | [], _ => none
  | (k1, v) :: rest, k => if k1 = k then some v else dictGet rest k

/-- Update-or-append, modelling Python `d[k] = v`: the first entry with key
`k` is overwritten in place, otherwise the pair is appended at the end. -/
def dictSet {κ α : Type} [DecidableEq κ] : List (κ × α) → κ → α → List (κ × α)
  | [], k, v => [(k, v)]
  | (k1, v1) :: rest, k, v =>
      if k1 = k then (k, v) :: rest else (k1, v1) :: dictSet rest k v

/-- Deletion, modelling Python `del d[k]` (keys are unique in a `dict`, so
dropping every entry with key `k` removes exactly the one entry). -/
def dictDel {κ α : Type} [DecidableEq κ] : List (κ × α) → κ → List (κ × α)
  | [], _ => []
  | (k1, v) :: rest, k =>
      if k1 = k then dictDel rest k else (k1, v) :: dictDel rest k

/-- The enumeration `ComponentType` from `component.py` (note that `ai` and
`sensory` are declared but have no component class and no registry entry). -/
inductive ComponentType : Type where
  | position | health | inventory | ai | sensory | memory | goal
  | relationship | schedule | occupation | needs | currency
deriving DecidableEq

/-- The tag string of a component type (`ComponentType.X.value`). -/
def ComponentType.value : ComponentType → String
  | .position => "position"
  | .health => "health"
  | .inventory => "inventory"
  | .ai => "ai"
  | .sensory => "sensory"
  | .memory => "memory"
  | .goal => "goal"
  | .relationship => "relationship"
  | .schedule => "schedule"
  | .occupation => "occupation"
  | .needs => "needs"
  | .currency => "currency"

/-- JSON values, as produced by `json.dump` / consumed by `json.load`. -/
inductive JVal : Type where
  | jnull : JVal
  | jbool (b : Bool) : JVal
  | jint (n : Int) : JVal
  | jnum (q : Rat) : JVal
  | jstr (s : String) : JVal
  | jarr (xs : List JVal) : JVal
  | jobj (fields : List (String × JVal)) : JVal

/-- A serialized component record: the JSON object a component's `to_dict`
produces and `from_dict` consumes. -/
abbrev CompRecord : Type := List (String × JVal)

/-- Read a string field with a default (`data.get(k, d)`). -/
def jStrD (data : CompRecord) (k : String) (d : String) : String :=
  match dictGet data k with
  | some (JVal.jstr s) => s
  | _ => d

/-- Read an integer field with a default (`data.get(k, d)`). -/
def jIntD (data : CompRecord) (k : String) (d : Int) : Int :=
  match dictGet data k with
  | some (JVal.jint n) => n
  | _ => d

/-- Read a float field with a default (`data.get(k, d)`); JSON numbers may be
integers or floats. -/
def jRatD (data : CompRecord) (k : String) (d : Rat) : Rat :=
  match dictGet data k with
  | some (JVal.jnum q) => q
  | some (JVal.jint n) => (n : Rat)
  | _ => d

/-- Read an optional string field (`data.get(k)`, default `None`). -/
def jStrOpt (data : CompRecord) (k : String) : Option String :=
  match dictGet data k with
  | some (JVal.jstr s) => some s
  | _ => none

/-- Coerce a JSON value to an integer with a default (values of int-valued
dict fields are stored at their documented type). -/
def jvalToIntD (v : JVal) (d : Int) : Int :=
  match v with
  | JVal.jint n => n
  | _ => d

/-- Coerce a JSON value to a string with a default. -/
def jvalToStrD (v : JVal) (d : String) : String :=
  match v with
  | JVal.jstr s => s
  | _ => d

/-- The decimal digit characters. -/
def digitCh : Nat → Char
  | 0 => '0' | 1 => '1' | 2 => '2' | 3 => '3' | 4 => '4'
  | 5 => '5' | 6 => '6' | 7 => '7' | 8 => '8' | _ => '9'

/-- Numeric value of a decimal digit character. -/
def chDigitVal (c : Char) : Nat := c.toNat - 48

/-- The decimal representation of a natural number, most significant digit
first. -/
def natDecChars (n : Nat) : List Char :=
  if n = 0 then ['0'] else ((Nat.digits 10 n).map digitCh).reverse

/-- Model of Python `str` on an integer (also the form `json.dump` writes for
an integer dictionary key). -/
def intToString (n : Int) : String :=
  if n < 0 then String.mk ('-' :: natDecChars n.natAbs)
  else String.mk (natDecChars n.natAbs)

/-- Every character is a decimal digit. -/
def isDecDigits (cs : List Char) : Bool := cs.all Char.isDigit

/-- Value of a decimal digit string, most significant digit first. -/
def decCharsVal (cs : List Char) : Nat :=
  cs.foldl (fun a c => a * 10 + chDigitVal c) 0

/-- Model of Python `int(s)` on canonical decimal strings: an optional minus
sign followed by a nonempty run of digits; anything else is a `ValueError`,
modelled as `none`. -/
def pyIntOfString (s : String) : Option Int :=
  match s.data with
  | [] => none
  | c :: cs =>
      if c = '-' then
        (if !cs.isEmpty && isDecDigits cs then some (-(decCharsVal cs : Int))
         else none)
      else
        (if isDecDigits (c :: cs) then some ((decCharsVal (c :: cs) : Int))
         else none)

/-- `PositionComponent` (location label plus coordinates). -/
structure PositionComponent where
  entity_id : Option Nat := none
  location : String := "Unknown"
  x : Rat := 0
  y : Rat := 0

/-- `HealthComponent` (current and maximum health). -/
structure HealthComponent where
  entity_id : Option Nat := none
  current : Int := 100
  maximum : Int := 100
deriving DecidableEq

/-- `HealthComponent.damage`: `current = max(0, current - amount)`. -/
def HealthComponent.damage (h : HealthComponent) (amount : Int) : HealthComponent :=
  { h with current := max 0 (h.current - amount) }

/-- `HealthComponent.heal`: `current = min(maximum, current + amount)`. -/
def HealthComponent.heal (h : HealthComponent) (amount : Int) : HealthComponent :=
  { h with current := min h.maximum (h.current + amount) }

/-- `InventoryComponent` (item counts and capacity). -/
structure InventoryComponent where
  entity_id : Option Nat := none
  items : List (String × Int) := []
  capacity : Int := 20

/-- `CurrencyComponent` (money). -/
structure CurrencyComponent where
  entity_id : Option Nat := none
  amount : Int := 0
deriving DecidableEq

/-- `CurrencyComponent.add`. -/
def CurrencyComponent.add (c : CurrencyComponent) (value : Int) : CurrencyComponent :=
  { c with amount := c.amount + value }

/-- `CurrencyComponent.remove`: succeeds (returning `true` and subtracting)
only when `amount >= value`, otherwise leaves the amount unchanged. -/
def CurrencyComponent.remove (c : CurrencyComponent) (value : Int) :
    Bool × CurrencyComponent :=
  if c.amount ≥ value then (true, { c with amount := c.amount - value })
  else (false, c)

/-- `RelationshipComponent` (entity-id to value map). -/
structure RelationshipComponent where
  entity_id : Option Nat := none
  relationships : List (Int × Int) := []

/-- `RelationshipComponent.get_relationship` (0 when absent). -/
def RelationshipComponent.get_relationship (c : RelationshipComponent)
    (eid : Int) : Int :=
  (dictGet c.relationships eid).getD 0

/-- `RelationshipComponent.set_relationship`: stores the value clamped to
`[-100, 100]`. -/
def RelationshipComponent.set_relationship (c : RelationshipComponent)
    (eid value : Int) : RelationshipComponent :=
  { c with relationships := dictSet c.relationships eid (max (-100) (min 100 value)) }

/-- `NeedsComponent` (hunger, energy, social, each a float). -/
structure NeedsComponent where
  entity_id : Option Nat := none
  hunger : Rat := 50
  energy : Rat := 100
  social : Rat := 50

/-- Python `max(d, key=d.get)` over an insertion-ordered dict: scan the
entries keeping the current best, replacing it only on a strictly greater
value, so the earliest entry wins ties (`max()` on an empty dict raises; the
empty case is unreachable at the call site). -/
def pyMaxByVal : List (String × Rat) → String
  | [] => ""
  | x :: xs => (xs.foldl (fun b p => if p.2 > b.2 then p else b) x).1

/-- `NeedsComponent.get_most_urgent_need`: urgency is `100 - value`, and the
maximum-urgency need is taken over the dict `{hunger, energy, social}` in
insertion order. -/
def NeedsComponent.get_most_urgent_need (n : NeedsComponent) : String :=
  pyMaxByVal
    [("hunger", 100 - n.hunger), ("energy", 100 - n.energy),
     ("social", 100 - n.social)]

/-- `ScheduleComponent` (time-of-day to activity map). -/
structure ScheduleComponent where
  entity_id : Option Nat := none
  schedule : List (String × String) := []

/-- `OccupationComponent`. -/
structure OccupationComponent where
  entity_id : Option Nat := none
  occupation : String := "Villager"
  workplace : String := "None"
  skill_level : Int := 1

/-- `MemoryComponent` (memories are arbitrary JSON records). -/
structure MemoryComponent where
  entity_id : Option Nat := none
  memories : List JVal := []
  max_memories : Int := 50

/-- `GoalComponent`. -/
structure GoalComponent where
  entity_id : Option Nat := none
  current_goal : Option String := none
  goals : List String := []

/-- A component: one of the ten concrete component classes (the tagged-union
view of the `Component` class hierarchy). -/
inductive Component : Type where
  | position (c : PositionComponent)
  | health (c : HealthComponent)
  | inventory (c : InventoryComponent)
  | currency (c : CurrencyComponent)
  | relationship (c : RelationshipComponent)
  | needs (c : NeedsComponent)
  | schedule (c : ScheduleComponent)
  | occupation (c : OccupationComponent)
  | memory (c : MemoryComponent)
  | goal (c : GoalComponent)

/-- The `component_type` of a component instance. -/
def Component.component_type : Component → ComponentType
  | .position _ => .position
  | .health _ => .health
  | .inventory _ => .inventory
  | .currency _ => .currency
  | .relationship _ => .relationship
  | .needs _ => .needs
  | .schedule _ => .schedule
  | .occupation _ => .occupation
  | .memory _ => .memory
  | .goal _ => .goal

/-- Overwrite the `entity_id` base field (done by `Entity.add_component`). -/
def Component.set_entity_id : Component → Nat → Component
  | .position c, i => .position { c with entity_id := some i }
  | .health c, i => .health { c with entity_id := some i }
  | .inventory c, i => .inventory { c with entity_id := some i }
  | .currency c, i => .currency { c with entity_id := some i }
  | .relationship c, i => .relationship { c with entity_id := some i }
  | .needs c, i => .needs { c with entity_id := some i }
  | .schedule c, i => .schedule { c with entity_id := some i }
  | .occupation c, i => .occupation { c with entity_id := some i }
  | .memory c, i => .memory { c with entity_id := some i }
  | .goal c, i => .goal { c with entity_id := some i }

/-- `PositionComponent.from_dict`. -/
def PositionComponent.from_dict (data : CompRecord) : PositionComponent :=
  { location := jStrD data "location" "Unknown",
    x := jRatD data "x" 0, y := jRatD data "y" 0 }

/-- `HealthComponent.from_dict`. -/
def HealthComponent.from_dict (data : CompRecord) : HealthComponent :=
  { current := jIntD data "current" 100, maximum := jIntD data "maximum" 100 }

/-- `InventoryComponent.from_dict`. -/
def InventoryComponent.from_dict (data : CompRecord) : InventoryComponent :=
  { items :=
      (match dictGet data "items" with
       | some (JVal.jobj kvs) => kvs.map (fun p => (p.1, jvalToIntD p.2 0))
       | _ => []),
    capacity := jIntD data "capacity" 20 }

/-- `CurrencyComponent.from_dict`. -/
def CurrencyComponent.from_dict (data : CompRecord) : CurrencyComponent :=
  { amount := jIntD data "amount" 0 }

/-- The dict comprehension `{int(k): v for k, v in relationships.items()}`:
each textual key is re-parsed to an integer, and a `ValueError` from `int`
aborts the whole load (`none`). -/
def parseRelEntries : List (String × JVal) → Option (List (Int × Int))
  | [] => some []
  | (k, v) :: rest =>
      match pyIntOfString k with
      | none => none
      | some ik =>
          match parseRelEntries rest with
          | none => none
          | some tl => some ((ik, jvalToIntD v 0) :: tl)

/-- `RelationshipComponent.from_dict`: string keys are converted back to
integers; an absent field defaults to the empty map, and a present field that
is not an object makes `.items()` raise (`none`). -/
def RelationshipComponent.from_dict (data : CompRecord) :
    Option RelationshipComponent :=
  match dictGet data "relationships" with
  | none => some { relationships := [] }
  | some (JVal.jobj kvs) =>
      (match parseRelEntries kvs with
       | some l => some { relationships := l }
       | none => none)
  | some _ => none

/-- `RelationshipComponent.to_dict`, composed with the key conversion
`json.dump` applies: JSON objects have textual keys, so each integer key is
written as its decimal string. -/
def RelationshipComponent.to_dict (c : RelationshipComponent) : CompRecord :=
  [("type", JVal.jstr "relationship"),
   ("entity_id",
     (match c.entity_id with
      | some i => JVal.jint (i : Int)
      | none => JVal.jnull)),
   ("relationships",
     JVal.jobj (c.relationships.map (fun p => (intToString p.1, JVal.jint p.2))))]

/-- `NeedsComponent.from_dict`. -/
def NeedsComponent.from_dict (data : CompRecord) : NeedsComponent :=
  { hunger := jRatD data "hunger" 50, energy := jRatD data "energy" 100,
    social := jRatD data "social" 50 }

/-- `ScheduleComponent.from_dict`. -/
def ScheduleComponent.from_dict (data : CompRecord) : ScheduleComponent :=
  { schedule :=
      (match dictGet data "schedule" with
       | some (JVal.jobj kvs) => kvs.map (fun p => (p.1, jvalToStrD p.2 ""))
       | _ => []) }

/-- `OccupationComponent.from_dict`. -/
def OccupationComponent.from_dict (data : CompRecord) : OccupationComponent :=
  { occupation := jStrD data "occupation" "Villager",
    workplace := jStrD data "workplace" "None",
    skill_level := jIntD data "skill_level" 1 }

/-- `MemoryComponent.from_dict`. -/
def MemoryComponent.from_dict (data : CompRecord) : MemoryComponent :=
  { memories :=
      (match dictGet data "memories" with
       | some (JVal.jarr xs) => xs
       | _ => []),
    max_memories := jIntD data "max_memories" 50 }

/-- `GoalComponent.from_dict`. -/
def GoalComponent.from_dict (data : CompRecord) : GoalComponent :=
  { current_goal := jStrOpt data "current_goal",
    goals :=
      (match dictGet data "goals" with
       | some (JVal.jarr xs) => xs.map (fun v => jvalToStrD v "")
       | _ => []) }

/-- Outcome of `create_component_from_dict`: a component, a silent skip
(unknown tag, the factory returns `None`), or an exception escaping the
deserializer. -/
inductive ParseResult : Type where
  | perr : ParseResult
  | skip : ParseResult
  | ok (c : Component) : ParseResult

/-- Whether the parse raised. -/
def ParseResult.is_err : ParseResult → Bool
  | .perr => true
  | _ => false

/-- `create_component_from_dict`: dispatch on the record's `"type"` tag over
`COMPONENT_REGISTRY` (exactly the ten component classes; `ai` and `sensory`
have no entry); an unregistered or missing tag yields `None` (skip). -/
def create_component_from_dict (data : CompRecord) : ParseResult :=
  match dictGet data "type" with
  | some (JVal.jstr tag) =>
      if tag = "position" then .ok (.position (PositionComponent.from_dict data))
      else if tag = "health" then .ok (.health (HealthComponent.from_dict data))
      else if tag = "inventory" then .ok (.inventory (InventoryComponent.from_dict data))
      else if tag = "currency" then .ok (.currency (CurrencyComponent.from_dict data))
      else if tag = "relationship" then
        (match RelationshipComponent.from_dict data with
         | some c => .ok (.relationship c)
         | none => .perr)
      else if tag = "needs" then .ok (.needs (NeedsComponent.from_dict data))
      else if tag = "schedule" then .ok (.schedule (ScheduleComponent.from_dict data))
      else if tag = "occupation" then .ok (.occupation (OccupationComponent.from_dict data))
      else if tag = "memory" then .ok (.memory (MemoryComponent.from_dict data))
      else if tag = "goal" then .ok (.goal (GoalComponent.from_dict data))
      else .skip
  | _ => .skip

/-- The component type a record's tag dispatches to in the registry, if any
(the domain of `COMPONENT_REGISTRY`). -/
def record_tag_type (data : CompRecord) : Option ComponentType :=
  match dictGet data "type" with
  | some (JVal.jstr tag) =>
      if tag = "position" then some ComponentType.position
      else if tag = "health" then some ComponentType.health
      else if tag = "inventory" then some ComponentType.inventory
      else if tag = "currency" then some ComponentType.currency
      else if tag = "relationship" then some ComponentType.relationship
      else if tag = "needs" then some ComponentType.needs
      else if tag = "schedule" then some ComponentType.schedule
      else if tag = "occupation" then some ComponentType.occupation
      else if tag = "memory" then some ComponentType.memory
      else if tag = "goal" then some ComponentType.goal
      else none
  | _ => none

/-- An entity: id, name, open type tag, component dict, active flag. -/
structure Entity where
  id : Nat
  name : String
  entity_type : String
  components : List (ComponentType × Component)
  active : Bool

/-- `Entity.__init__`: the id is drawn from `Entity._next_id` (passed in
explicitly as `nid`); the component dict starts empty and the entity starts
active. -/
def Entity.make (nid : Nat) (name etype : String) : Entity :=
  { id := nid, name := name, entity_type := etype, components := [], active := true }

/-- `Entity.add_component`: fails (and changes nothing) when a component of
the same type is already attached; otherwise stamps the component with the
owner's id and stores it. -/
def Entity.add_component (e : Entity) (c : Component) : Bool × Entity :=
  if (dictGet e.components c.component_type).isSome then (false, e)
  else
    (true,
     { e with
        components := dictSet e.components c.component_type (c.set_entity_id e.id) })

/-- `Entity.remove_component`. -/
def Entity.remove_component (e : Entity) (ct : ComponentType) : Bool × Entity :=
  if (dictGet e.components ct).isSome then
    (true, { e with components := dictDel e.components ct })
  else (false, e)

/-- `Entity.get_component`. -/
def Entity.get_component (e : Entity) (ct : ComponentType) : Option Component :=
  dictGet e.components ct

/-- `Entity.has_component`. -/
def Entity.has_component (e : Entity) (ct : ComponentType) : Bool :=
  (dictGet e.components ct).isSome

/-- `Entity.has_components`: the entity has every listed component type. -/
def Entity.has_components (e : Entity) (cts : List ComponentType) : Bool :=
  cts.all (fun ct => (dictGet e.components ct).isSome)

/-- A serialized entity record (the object produced by `Entity.to_dict`):
each field may be absent, and `components` is a list of component records. -/
structure EntityRecord where
  id : Option Nat := none
  name : Option String := none
  entity_type : Option String := none
  active : Option Bool := none
  components : List CompRecord := []

/-- The component-restoring loop of `Entity.from_dict`: parse each record,
skip `None` results (unknown tags), attach the rest (ignoring the boolean
result of `add_component`), and propagate an exception as `none`. -/
def addComponentsFromRecords (e : Entity) : List CompRecord → Option Entity
  | [] => some e
  | cr :: rest =>
      match create_component_from_dict cr with
      | ParseResult.perr => none
      | ParseResult.skip => addComponentsFromRecords e rest
      | ParseResult.ok c => addComponentsFromRecords (e.add_component c).2 rest

/-- `Entity.from_dict`: builds a fresh entity (consuming one counter value),
overrides its id with the record's id when present, restores the flags and
components.  The second result is the new value of `Entity._next_id`. -/
def Entity.from_dict (r : EntityRecord) (nid : Nat) : Option Entity × Nat :=
  let base := Entity.make nid (r.name.getD "Unnamed Entity") (r.entity_type.getD "Generic")
  let e0 := { base with id := r.id.getD base.id, active := r.active.getD true }
  (addComponentsFromRecords e0 r.components, nid + 1)

/-- The entity manager: the primary id-to-entity dict and the secondary
type-to-id-list index. -/
structure EntityManager where
  entities : List (Nat × Entity)
  entities_by_type : List (String × List Nat)

/-- `EntityManager.__init__`. -/
def EntityManager.init : EntityManager :=
  { entities := [], entities_by_type := [] }

/-- `EntityManager.add_entity`: fails if the id is already present; otherwise
registers the entity in the primary dict and appends its id to its type's
list (creating the list first when the type is new). -/
def EntityManager.add_entity (m : EntityManager) (e : Entity) :
    Bool × EntityManager :=
  if (dictGet m.entities e.id).isSome then (false, m)
  else
    let bt :=
      if (dictGet m.entities_by_type e.entity_type).isSome then m.entities_by_type
      else m.entities_by_type ++ [(e.entity_type, [])]
    let cur := (dictGet bt e.entity_type).getD []
    (true,
     { entities := m.entities ++ [(e.id, e)],
       entities_by_type := dictSet bt e.entity_type (cur ++ [e.id]) })

/-- `EntityManager.remove_entity`: no-ops on a missing id; otherwise removes
the id from its type's list (first occurrence, guarded by membership) and
deletes the entity from the primary dict. -/
def EntityManager.remove_entity (m : EntityManager) (eid : Nat) :
    Bool × EntityManager :=
  match dictGet m.entities eid with
  | none => (false, m)
  | some e =>
      let bt :=
        match dictGet m.entities_by_type e.entity_type with
        | some ids =>
            if eid ∈ ids then
              dictSet m.entities_by_type e.entity_type (ids.erase eid)
            else m.entities_by_type
        | none => m.entities_by_type
      (true, { entities := dictDel m.entities eid, entities_by_type := bt })

/-- `EntityManager.get_entity`. -/
def EntityManager.get_entity (m : EntityManager) (eid : Nat) : Option Entity :=
  dictGet m.entities eid

/-- `EntityManager.query_entities`: linear scan over `entities.values()`,
keeping the active entities that have every required component type. -/
def EntityManager.query_entities (m : EntityManager)
    (required : List ComponentType) : List Entity :=
  (m.entities.map Prod.snd).filter (fun e => e.active && e.has_components required)

/-- `EntityManager.clear`. -/
def EntityManager.clear (_ : EntityManager) : EntityManager :=
  { entities := [], entities_by_type := [] }

/-- `EntityManager.create_entity`: builds a fresh entity from the counter
value `nid` (`Entity._next_id`) and registers it. -/
def EntityManager.create_entity (m : EntityManager) (nid : Nat)
    (name etype : String) : Entity × EntityManager :=
  let e := Entity.make nid name etype
  (e, (m.add_entity e).2)

/-- The loop of `EntityManager.from_dict`: restore each record, add it, and
bump `Entity._next_id` past the restored id (`if entity.id >= _next_id:
_next_id = entity.id + 1`); a component parse error aborts the load. -/
def EntityManager.from_dict_go (m : EntityManager) (nid : Nat) :
    List EntityRecord → Option (EntityManager × Nat)
  | [] => some (m, nid)
  | r :: rest =>
      match Entity.from_dict r nid with
      | (none, _) => none
      | (some e, nid1) =>
          let m1 := (m.add_entity e).2
          let nid2 := if nid1 ≤ e.id then e.id + 1 else nid1
          EntityManager.from_dict_go m1 nid2 rest

/-- `EntityManager.from_dict` on the `"entities"` list of the serialized
data, starting from a fresh manager and the current `Entity._next_id`. -/
def EntityManager.from_dict (records : List EntityRecord) (nid : Nat) :
    Option (EntityManager × Nat) :=
  EntityManager.from_dict_go EntityManager.init nid records

/-- A manager together with the process-wide `Entity._next_id` counter. -/
structure World where
  manager : EntityManager
  next_id : Nat

/-- `create_entity` at the world level: the counter supplies the id and
advances. -/
def World.create_entity (w : World) (name etype : String) : Entity × World :=
  let p := w.manager.create_entity w.next_id name etype
  (p.1, { manager := p.2, next_id := w.next_id + 1 })

/-- The ids handed out by a sequence of `create_entity` calls. -/
def createdIdsFrom (w : World) : List (String × String) → List Nat
  | [] => []
  | (nm, ty) :: rest =>
      let p := w.create_entity nm ty
      p.1.id :: createdIdsFrom p.2 rest

/-- The managers reachable from a fresh manager by `create_entity` (with any
counter value), `add_entity`, `remove_entity` and `clear`. -/
inductive ReachableEM : EntityManager → Prop where
  | empty : ReachableEM EntityManager.init
  | create (m : EntityManager) (nid : Nat) (nm ty : String) :
      ReachableEM m → ReachableEM (m.create_entity nid nm ty).2
  | add (m : EntityManager) (e : Entity) :
      ReachableEM m → ReachableEM (m.add_entity e).2
  | remove (m : EntityManager) (eid : Nat) :
      ReachableEM m → ReachableEM (m.remove_entity eid).2
  | clear (m : EntityManager) : ReachableEM m → ReachableEM m.clear

/-- `TimeOfDay.get_all()`. -/
def TimeOfDay.get_all : List String :=
  ["morning", "afternoon", "evening", "night"]

/-- Python `list.index` returning `None` instead of raising `ValueError`
(the callers wrap the call in `try/except`). -/
def listIndex {α : Type} [DecidableEq α] (x : α) : List α → Option Nat
  | [] => none
  | y :: ys => if y = x then some 0 else (listIndex x ys).map (fun i => i + 1)

/-- `TimeOfDay.get_next`: the next entry cyclically; an unrecognized label
(the `except ValueError` branch) yields `MORNING`.  The `getD` default is
never reached since the index is reduced modulo the length. -/
def TimeOfDay.get_next (current : String) : String :=
  match listIndex current TimeOfDay.get_all with
  | some index =>
      TimeOfDay.get_all.getD ((index + 1) % TimeOfDay.get_all.length) "morning"
  | none => "morning"

/-- `Season.get_all()`. -/
def Season.get_all : List String :=
  ["spring", "summer", "fall", "winter"]

/-- `Season.get_next`: the next entry cyclically; an unrecognized label (the
`except ValueError` branch) yields `SPRING`. -/
def Season.get_next (current : String) : String :=
  match listIndex current Season.get_all with
  | some index =>
      Season.get_all.getD ((index + 1) % Season.get_all.length) "spring"
  | none => "spring"

/-- The game state (calendar, weather, player binding, entity manager);
metadata (name, timestamps) is outside this model. -/
structure GameState where
  entity_manager : EntityManager
  day_count : Nat
  time_of_day : String
  season : String
  year : Nat
  current_weather : String
  player_id : Option Nat

/-- `GameState.__init__`. -/
def GameState.init : GameState :=
  { entity_manager := EntityManager.init, day_count := 1,
    time_of_day := "morning", season := "spring", year := 1,
    current_weather := "sunny", player_id := none }

/-- `GameState.advance_time`: advance the time of day; on wrapping to
morning increment the day; every 28th day (`day_count % 28 == 0`) advance
the season; on wrapping to spring increment the year. -/
def GameState.advance_time (s : GameState) : GameState :=
  let t := TimeOfDay.get_next s.time_of_day
  if t = "morning" then
    let d := s.day_count + 1
    if d % 28 = 0 then
      let se := Season.get_next s.season
      if se = "spring" then
        { s with time_of_day := t, day_count := d, season := se, year := s.year + 1 }
      else { s with time_of_day := t, day_count := d, season := se }
    else { s with time_of_day := t, day_count := d }
  else { s with time_of_day := t }

/-- Derived helper (not itself source code): the net effect of one full day
of `advance_time` calls on a morning state — the body of the
`if self.time_of_day == TimeOfDay.MORNING` branch of `advance_time`. -/
def dayAdvance (s : GameState) : GameState :=
  let d := s.day_count + 1
  if d % 28 = 0 then
    let se := Season.get_next s.season
    if se = "spring" then
      { s with time_of_day := "morning", day_count := d, season := se, year := s.year + 1 }
    else { s with time_of_day := "morning", day_count := d, season := se }
  else { s with time_of_day := "morning", day_count := d }

/-- A sample serialized entity record carrying id 5 (used in concrete
instantiations). -/
def sampleRecord : EntityRecord := { id := some 5 }

/-- The entity `sampleRecord` deserializes to. -/
def sampleLoadedEntity : Entity :=
  { id := 5, name := "Unnamed Entity", entity_type := "Generic",
    components := [], active := true }

/-- The manager obtained by loading `[sampleRecord]` into a fresh manager. -/
def sampleLoadedManager : EntityManager :=
  { entities := [(5, sampleLoadedEntity)],
    entities_by_type := [("Generic", [5])] }

/-- Sample component records: one registered tag (`health`), one tag that is
a `ComponentType` but has no registry entry (`ai`), and one entirely unknown
tag (`teleport`). -/
def sampleComponentRecords : List CompRecord :=
  [[("type", JVal.jstr "health"), ("current", JVal.jint 7)],
   [("type", JVal.jstr "ai")],
   [("type", JVal.jstr "teleport")]]

/-- A sample entity record carrying `sampleComponentRecords`. -/
def sampleEntityRecord : EntityRecord :=
  { id := some 9, components := sampleComponentRecords }

/-- The consistency invariant between the primary entity dict and the
type index: the index has no duplicate type keys, every id occurs in the
index exactly once overall and exactly when it is a key of the primary dict,
and every id listed under a type belongs to an entity of that type. -/
def EMInv (m : EntityManager) : Prop :=
  (m.entities_by_type.map Prod.fst).Nodup ∧
  (∀ id : Nat, ((m.entities_by_type.map Prod.snd).flatten).count id =
    (if (dictGet m.entities id).isSome then 1 else 0)) ∧
  (∀ t ids id, dictGet m.entities_by_type t = some ids → id ∈ ids →
    ∃ e, dictGet m.entities id = some e ∧ e.entity_type = t)

/-! ### Theorems -/

theorem advance_time_of_morning (s : GameState) (ht : s.time_of_day = "morning") :
    s.advance_time = { s with time_of_day := "afternoon" } := by
  unfold GameState.advance_time
  rw [ht]
  rfl

theorem advance_time_of_afternoon (s : GameState) (ht : s.time_of_day = "afternoon") :
    s.advance_time = { s with time_of_day := "evening" } := by
  unfold GameState.advance_time
  rw [ht]
  rfl

theorem advance_time_of_evening (s : GameState) (ht : s.time_of_day = "evening") :
    s.advance_time = { s with time_of_day := "night" } := by
  unfold GameState.advance_time
  rw [ht]
  rfl

theorem advance_time_of_night (s : GameState) (ht : s.time_of_day = "night") :
    s.advance_time = dayAdvance s := by
  unfold GameState.advance_time dayAdvance
  rw [ht]
  rfl

theorem dayAdvance_time_of_day (s : GameState) :
    (dayAdvance s).time_of_day = "morning" := by
  unfold dayAdvance
  by_cases h1 : (s.day_count + 1) % 28 = 0
  · by_cases h2 : Season.get_next s.season = "spring"
    · simp [h1, h2]
    · simp [h1, h2]
  · simp [h1]

theorem advance_time_four (s : GameState) (ht : s.time_of_day = "morning") :
    (GameState.advance_time)^[4] s = dayAdvance s := by
  have h4 : (4 : Nat) = 1 + 1 + 1 + 1 := rfl
  rw [h4, Function.iterate_add_apply, Function.iterate_add_apply,
    Function.iterate_add_apply, Function.iterate_one]
  rw [advance_time_of_morning s ht]
  rw [advance_time_of_afternoon { s with time_of_day := "afternoon" } rfl]
  rw [advance_time_of_evening { s with time_of_day := "evening" } rfl]
  rw [advance_time_of_night { s with time_of_day := "night" } rfl]
  rfl

theorem advance_time_iterate_days (k : Nat) (s : GameState)
    (ht : s.time_of_day = "morning") :
    (GameState.advance_time)^[4 * k] s = (dayAdvance)^[k] s := by
  induction k generalizing s with
  | zero => rfl
  | succ k ih =>
      have h1 : 4 * (k + 1) = 4 * k + 4 := by ring
      rw [h1, Function.iterate_add_apply, advance_time_four s ht,
        ih _ (dayAdvance_time_of_day s), Function.iterate_succ_apply]

theorem dictGet_dictSet {κ α : Type} [DecidableEq κ]
    (m : List (κ × α)) (k k1 : κ) (v : α) :
    dictGet (dictSet m k v) k1 = if k = k1 then some v else dictGet m k1 := by
  induction m with
  | nil =>
      by_cases h : k = k1 <;> simp [dictGet, dictSet, h]
  | cons hd tl ih =>
      obtain ⟨k2, v2⟩ := hd
      by_cases h2 : k2 = k
      · subst h2
        by_cases h : k2 = k1 <;> simp [dictGet, dictSet, h]
      · by_cases h : k2 = k1
        · subst h
          simp [dictGet, dictSet, h2]
          rw [if_neg (fun hh => h2 hh.symm)]
        · simp [dictGet, dictSet, h2, h, ih]

theorem dictGet_dictDel {κ α : Type} [DecidableEq κ]
    (m : List (κ × α)) (k k1 : κ) :
    dictGet (dictDel m k) k1 = if k = k1 then none else dictGet m k1 := by
  induction m with
  | nil => by_cases h : k = k1 <;> simp [dictGet, dictDel, h]
  | cons hd tl ih =>
      obtain ⟨k2, v2⟩ := hd
      by_cases h2 : k2 = k
      · subst h2
        by_cases h : k2 = k1
        · subst h; simp_all [dictGet, dictDel]
        · simp_all [dictGet, dictDel]
      · by_cases h : k2 = k1
        · subst h
          have hk : ¬ (k = k2) := fun hh => h2 hh.symm
          simp [dictGet, dictDel, h2, hk]
        · simp only [dictGet, dictDel, if_neg h2, if_neg h]
          exact ih

theorem dictGet_append {κ α : Type} [DecidableEq κ]
    (m1 m2 : List (κ × α)) (k : κ) :
    dictGet (m1 ++ m2) k =
      match dictGet m1 k with
      | some v => some v
      | none => dictGet m2 k := by
  induction m1 with
  | nil => simp [dictGet]
  | cons hd tl ih =>
      obtain ⟨k1, v1⟩ := hd
      by_cases h : k1 = k <;> simp [dictGet, h, ih]

theorem listIndex_eq_none {α : Type} [DecidableEq α] {x : α} {l : List α}
    (h : x ∉ l) : listIndex x l = none := by
  induction l with
  | nil => rfl
  | cons y ys ih =>
      simp only [List.mem_cons, not_or] at h
      simp [listIndex, Ne.symm h.1, ih h.2]

/-- C9: `TimeOfDay.get_next` and `Season.get_next` are total: on a label that
is not one of the recognized ones they fall back to `"morning"` and
`"spring"` respectively (the `except ValueError` branches), so
`advance_time` is defined on every state, even one holding a corrupt
label. -/
theorem c9_corrupt_label_total (t se : String)
    (ht : t ∉ TimeOfDay.get_all) (hs : se ∉ Season.get_all) :
    TimeOfDay.get_next t = "morning" ∧ Season.get_next se = "spring" := by
  constructor
  · unfold TimeOfDay.get_next
    rw [listIndex_eq_none ht]
  · unfold Season.get_next
    rw [listIndex_eq_none hs]

/-- Witness for C9 at the corrupt labels `"noon"` and `"monsoon"`. -/
theorem c9_witness :
    ("noon" ∉ TimeOfDay.get_all) ∧ ("monsoon" ∉ Season.get_all) ∧
    TimeOfDay.get_next "noon" = "morning" ∧
    Season.get_next "monsoon" = "spring" := by
  have h := c9_corrupt_label_total "noon" "monsoon" (by decide) (by decide)
  exact ⟨by decide, by decide, h.1, h.2⟩

set_option maxRecDepth 10000 in
/-- C1, counterexample: from the initial state (morning, day 1, spring,
year 1), 112 `advance_time` calls do NOT yield spring of year 2; they yield
summer of year 1 (day 29: the season advanced once, at day 28). -/
theorem c1_counterexample :
    ((GameState.advance_time)^[112] GameState.init).season = "summer" ∧
    ((GameState.advance_time)^[112] GameState.init).year = 1 ∧
    ¬ (((GameState.advance_time)^[112] GameState.init).season = "spring" ∧
       ((GameState.advance_time)^[112] GameState.init).year = 2) := by
  have h : (GameState.advance_time)^[112] GameState.init =
      (dayAdvance)^[28] GameState.init := by
    rw [show (112 : Nat) = 4 * 28 from rfl]
    exact advance_time_iterate_days 28 GameState.init rfl
  rw [h]
  exact ⟨rfl, rfl, fun hc => absurd hc.1 (by decide)⟩

set_option maxRecDepth 40000 in
/-- C1, amended: from the initial state, 4 `advance_time` calls yield
(morning, day 2); 112 calls yield (morning, day 29, summer, year 1); spring
of year 2 is first reached by 444 calls (day 112, when the season wraps
from winter back to spring). -/
theorem c1_amended_calendar :
    (((GameState.advance_time)^[4] GameState.init).time_of_day = "morning" ∧
     ((GameState.advance_time)^[4] GameState.init).day_count = 2) ∧
    (((GameState.advance_time)^[112] GameState.init).time_of_day = "morning" ∧
     ((GameState.advance_time)^[112] GameState.init).day_count = 29 ∧
     ((GameState.advance_time)^[112] GameState.init).season = "summer" ∧
     ((GameState.advance_time)^[112] GameState.init).year = 1) ∧
    (((GameState.advance_time)^[444] GameState.init).time_of_day = "morning" ∧
     ((GameState.advance_time)^[444] GameState.init).day_count = 112 ∧
     ((GameState.advance_time)^[444] GameState.init).season = "spring" ∧
     ((GameState.advance_time)^[444] GameState.init).year = 2) := by
  have h4 : (GameState.advance_time)^[4] GameState.init =
      dayAdvance GameState.init := by
    rw [show (4 : Nat) = 4 * 1 from rfl]
    exact advance_time_iterate_days 1 GameState.init rfl
  have h112 : (GameState.advance_time)^[112] GameState.init =
      (dayAdvance)^[28] GameState.init := by
    rw [show (112 : Nat) = 4 * 28 from rfl]
    exact advance_time_iterate_days 28 GameState.init rfl
  have h444 : (GameState.advance_time)^[444] GameState.init =
      (dayAdvance)^[111] GameState.init := by
    rw [show (444 : Nat) = 4 * 111 from rfl]
    exact advance_time_iterate_days 111 GameState.init rfl
  rw [h4, h112, h444]
  exact ⟨⟨rfl, rfl⟩, ⟨rfl, rfl, rfl, rfl⟩, ⟨rfl, rfl, rfl, rfl⟩⟩

/-- C2, counterexample: on `Health(current=5, maximum=100)` and `d = 50`
(which satisfies the claim's premises `0 <= current <= maximum` and
`d <= maximum`), `damage(50)` then `heal(50)` ends at `current = 50`, not at
the pre-damage value 5. -/
theorem c2_counterexample :
    (0 : Int) ≤ (⟨none, 5, 100⟩ : HealthComponent).current ∧
    (⟨none, 5, 100⟩ : HealthComponent).current ≤
      (⟨none, 5, 100⟩ : HealthComponent).maximum ∧
    (50 : Int) ≤ (⟨none, 5, 100⟩ : HealthComponent).maximum ∧
    ((((⟨none, 5, 100⟩ : HealthComponent).damage 50).heal 50).current = 50) ∧
    ¬ ((((⟨none, 5, 100⟩ : HealthComponent).damage 50).heal 50).current = 5) := by
  decide

/-- C2, amended: for `0 <= current <= maximum` and `d <= current` (rather
than `d <= maximum`), `damage(d)` then `heal(d)` restores the pre-damage
`current`. -/
theorem c2_amended_damage_heal (h : HealthComponent) (d : Int)
    (h0 : 0 ≤ h.current) (h1 : h.current ≤ h.maximum) (hd : d ≤ h.current) :
    ((h.damage d).heal d).current = h.current := by
  show min h.maximum (max 0 (h.current - d) + d) = h.current
  omega

/-- Witness for C2 (amended) at `Health(80, 100)`, `d = 30`. -/
theorem c2_witness :
    (0 : Int) ≤ (⟨none, 80, 100⟩ : HealthComponent).current ∧
    (⟨none, 80, 100⟩ : HealthComponent).current ≤
      (⟨none, 80, 100⟩ : HealthComponent).maximum ∧
    (30 : Int) ≤ (⟨none, 80, 100⟩ : HealthComponent).current ∧
    ((((⟨none, 80, 100⟩ : HealthComponent).damage 30).heal 30).current =
      (⟨none, 80, 100⟩ : HealthComponent).current) :=
  ⟨by decide, by decide, by decide,
    c2_amended_damage_heal ⟨none, 80, 100⟩ 30 (by decide) (by decide) (by decide)⟩

/-- C5: with `a = amount >= b >= 0`, `remove(b)` succeeds and leaves
`amount = a - b`; `remove(a + 1)` fails and leaves the amount unchanged. -/
theorem c5_currency_remove (c : CurrencyComponent) (b : Int)
    (hb : 0 ≤ b) (hab : b ≤ c.amount) :
    c.remove b = (true, { c with amount := c.amount - b }) ∧
    c.remove (c.amount + 1) = (false, c) := by
  unfold CurrencyComponent.remove
  constructor
  · rw [if_pos (by omega)]
  · rw [if_neg (by omega)]

/-- Witness for C5 at `Currency(10)`, `b = 3`. -/
theorem c5_witness :
    (0 : Int) ≤ 3 ∧ (3 : Int) ≤ (⟨none, 10⟩ : CurrencyComponent).amount ∧
    CurrencyComponent.remove ⟨none, 10⟩ 3 = (true, ⟨none, 7⟩) ∧
    CurrencyComponent.remove ⟨none, 10⟩ (10 + 1) = (false, ⟨none, 10⟩) := by
  have h := c5_currency_remove ⟨none, 10⟩ 3 (by decide) (by decide)
  refine ⟨by decide, by decide, ?_, ?_⟩
  · rw [h.1]
    decide
  · exact h.2

/-- C6: `query_entities` returns exactly the stored entities that are active
and whose component set contains every requested component type. -/
theorem c6_query_entities_exact (m : EntityManager)
    (cts : List ComponentType) (e : Entity) :
    e ∈ m.query_entities cts ↔
      (e ∈ m.entities.map Prod.snd ∧ e.active = true ∧
        ∀ ct ∈ cts, (dictGet e.components ct).isSome = true) := by
  unfold EntityManager.query_entities Entity.has_components
  rw [List.mem_filter]
  simp [List.all_eq_true, and_assoc]

/-- C8: `get_most_urgent_need` returns the need with the numerically lowest
value (urgency `100 - value`), ties resolving in the fixed priority order
hunger, then energy, then social. -/
theorem c8_most_urgent_need (n : NeedsComponent) :
    n.get_most_urgent_need =
      (if n.hunger ≤ n.energy ∧ n.hunger ≤ n.social then "hunger"
       else if n.energy ≤ n.social then "energy"
       else "social") := by
  unfold NeedsComponent.get_most_urgent_need pyMaxByVal
  simp only [List.foldl_cons, List.foldl_nil]
  split_ifs <;> simp_all <;> linarith

theorem chDigitVal_digitCh {d : Nat} (hd : d < 10) :
    chDigitVal (digitCh d) = d := by
  interval_cases d <;> rfl

theorem isDigit_digitCh {d : Nat} (hd : d < 10) :
    (digitCh d).isDigit = true := by
  interval_cases d <;> rfl

theorem natDecChars_ne_nil (n : Nat) : natDecChars n ≠ [] := by
  unfold natDecChars
  by_cases h : n = 0
  · simp [h]
  · rw [if_neg h]
    simp [Nat.digits_ne_nil_iff_ne_zero.mpr h]

theorem isDecDigits_natDecChars (n : Nat) : isDecDigits (natDecChars n) = true := by
  unfold natDecChars isDecDigits
  by_cases h : n = 0
  · simp [h]
  · rw [if_neg h]
    rw [List.all_eq_true]
    intro c hc
    rw [List.mem_reverse, List.mem_map] at hc
    obtain ⟨d, hd, rfl⟩ := hc
    exact isDigit_digitCh (Nat.digits_lt_base (by norm_num) hd)

theorem foldr_map_digitCh (L : List Nat) (hL : ∀ d ∈ L, d < 10) :
    (L.map digitCh).foldr (fun c a => a * 10 + chDigitVal c) 0 =
      Nat.ofDigits 10 L := by
  induction L with
  | nil => simp [Nat.ofDigits]
  | cons d L ih =>
      simp only [List.map_cons, List.foldr_cons]
      rw [ih (fun x hx => hL x (List.mem_cons_of_mem _ hx)),
        chDigitVal_digitCh (hL d (List.mem_cons_self _ _)), Nat.ofDigits_cons]
      ring

theorem decCharsVal_natDecChars (n : Nat) : decCharsVal (natDecChars n) = n := by
  unfold natDecChars decCharsVal
  by_cases h : n = 0
  · simp [h, chDigitVal]
  · rw [if_neg h, List.foldl_reverse]
    rw [foldr_map_digitCh _ (fun d hd => Nat.digits_lt_base (by norm_num) hd)]
    exact Nat.ofDigits_digits 10 n

theorem pyIntOfString_intToString (n : Int) :
    pyIntOfString (intToString n) = some n := by
  unfold intToString pyIntOfString
  by_cases hn : n < 0
  · rw [if_pos hn]
    have h1 : (natDecChars n.natAbs).isEmpty = false := by
      cases h : natDecChars n.natAbs with
      | nil => exact absurd h (natDecChars_ne_nil _)
      | cons c cs => rfl
    simp [h1, isDecDigits_natDecChars]
    rw [decCharsVal_natDecChars]
    omega
  · rw [if_neg hn]
    cases h : natDecChars n.natAbs with
    | nil => exact absurd h (natDecChars_ne_nil _)
    | cons c cs =>
        have hdig : c.isDigit = true := by
          have h2 := isDecDigits_natDecChars n.natAbs
          rw [h] at h2
          unfold isDecDigits at h2
          rw [List.all_eq_true] at h2
          exact h2 c (List.mem_cons_self _ _)
        have hcm : ¬ (c = '-') := by
          intro hc
          rw [hc] at hdig
          exact absurd hdig (by decide)
        have hdd : isDecDigits (c :: cs) = true := by
          rw [← h]
          exact isDecDigits_natDecChars n.natAbs
        simp [h, hcm, hdd]
        rw [← h, decCharsVal_natDecChars]
        omega

theorem parseRelEntries_map_ser (l : List (Int × Int)) :
    parseRelEntries (l.map (fun p => (intToString p.1, JVal.jint p.2))) =
      some l := by
  induction l with
  | nil => rfl
  | cons p rest ih =>
      obtain ⟨k, v⟩ := p
      simp only [List.map_cons, parseRelEntries, pyIntOfString_intToString, ih]
      rfl

/-- C4: after `set_relationship(7, 60)`, serializing (`to_dict`, with the
textual keys the JSON layer produces) and deserializing (`from_dict`)
succeeds and yields a component whose relationships map equals the original
integer-keyed map (textual keys re-parsed to integers) and whose
`get_relationship(7)` is 60. -/
theorem c4_relationship_roundtrip (rc : RelationshipComponent) :
    ∃ r3, RelationshipComponent.from_dict
        (RelationshipComponent.to_dict (rc.set_relationship 7 60)) = some r3 ∧
      r3.relationships = (rc.set_relationship 7 60).relationships ∧
      r3.get_relationship 7 = 60 := by
  refine ⟨{ relationships := (rc.set_relationship 7 60).relationships },
    ?_, rfl, ?_⟩
  · have h1 : RelationshipComponent.from_dict
        (RelationshipComponent.to_dict (rc.set_relationship 7 60)) =
        (match parseRelEntries ((rc.set_relationship 7 60).relationships.map
            (fun p => (intToString p.1, JVal.jint p.2))) with
         | some l => some { relationships := l }
         | none => none) := rfl
    rw [h1, parseRelEntries_map_ser]
  · show (dictGet (dictSet rc.relationships 7 (max (-100) (min 100 60))) 7).getD 0 = 60
    rw [dictGet_dictSet, if_pos rfl]
    rfl

theorem add_component_id (e : Entity) (c : Component) :
    ((e.add_component c).2).id = e.id := by
  unfold Entity.add_component
  split_ifs <;> rfl

theorem addComponentsFromRecords_id (rs : List CompRecord) (e e2 : Entity)
    (h : addComponentsFromRecords e rs = some e2) : e2.id = e.id := by
  induction rs generalizing e with
  | nil =>
      simp only [addComponentsFromRecords] at h
      cases h
      rfl
  | cons cr rest ih =>
      simp only [addComponentsFromRecords] at h
      cases hc : create_component_from_dict cr with
      | perr => rw [hc] at h; cases h
      | skip => rw [hc] at h; exact ih e h
      | ok c =>
          rw [hc] at h
          exact (ih _ h).trans (add_component_id e c)

theorem from_dict_go_ids (recs : List EntityRecord) (m m1 : EntityManager)
    (n0 n1 : Nat)
    (h : EntityManager.from_dict_go m n0 recs = some (m1, n1)) :
    n0 ≤ n1 ∧ ∀ rid ∈ recs.filterMap EntityRecord.id, rid < n1 := by
  induction recs generalizing m n0 with
  | nil =>
      simp only [EntityManager.from_dict_go] at h
      cases h
      exact ⟨le_refl n1, by simp⟩
  | cons r rest ih =>
      simp only [EntityManager.from_dict_go, Entity.from_dict, Entity.make] at h
      cases hae : addComponentsFromRecords
          { id := r.id.getD n0, name := r.name.getD "Unnamed Entity",
            entity_type := r.entity_type.getD "Generic", components := [],
            active := r.active.getD true } r.components with
      | none => rw [hae] at h; cases h
      | some e =>
          rw [hae] at h
          simp only at h
          obtain ⟨hle, hrest⟩ := ih _ _ h
          have heid : e.id = r.id.getD n0 := addComponentsFromRecords_id _ _ _ hae
          constructor
          · have : n0 ≤ (if n0 + 1 ≤ e.id then e.id + 1 else n0 + 1) := by
              split_ifs <;> omega
            omega
          · intro rid hrid
            simp only [List.filterMap_cons] at hrid
            cases hr : r.id with
            | none =>
                rw [hr] at hrid
                exact hrest rid hrid
            | some rv =>
                rw [hr] at hrid
                simp only [List.mem_cons] at hrid
                rcases hrid with rfl | hrid
                · have hev : e.id = rid := by rw [heid, hr]; rfl
                  have : rid < (if n0 + 1 ≤ e.id then e.id + 1 else n0 + 1) := by
                    split_ifs <;> omega
                  omega
                · exact hrest rid hrid

theorem createdIdsFrom_ge (specs : List (String × String)) (w : World) :
    ∀ cid ∈ createdIdsFrom w specs, w.next_id ≤ cid := by
  induction specs generalizing w with
  | nil => simp [createdIdsFrom]
  | cons s rest ih =>
      obtain ⟨nm, ty⟩ := s
      intro cid hc
      simp only [createdIdsFrom, List.mem_cons] at hc
      rcases hc with rfl | hc
      · exact le_refl _
      · have h2 := ih (w.create_entity nm ty).2 cid hc
        have h3 : (w.create_entity nm ty).2.next_id = w.next_id + 1 := rfl
        omega

/-- C3: after a successful `EntityManager.from_dict`, every entity id handed
out by a subsequent sequence of `create_entity` calls is strictly greater
than every entity id present in the loaded records (no collision between
fresh and loaded ids). -/
theorem c3_id_continuity (records : List EntityRecord) (n0 : Nat)
    (m : EntityManager) (n1 : Nat) (rid : Nat)
    (hload : EntityManager.from_dict records n0 = some (m, n1))
    (hrid : rid ∈ records.filterMap EntityRecord.id)
    (specs : List (String × String)) (cid : Nat)
    (hcid : cid ∈ createdIdsFrom ⟨m, n1⟩ specs) :
    rid < cid := by
  have h := from_dict_go_ids records EntityManager.init m n0 n1 hload
  have h1 := h.2 rid hrid
  have h2 : n1 ≤ cid := createdIdsFrom_ge specs ⟨m, n1⟩ cid hcid
  omega

/-- Witness for C3: load one record with id 5 starting from counter 1; the
counter lands on 6 and the next created entity gets id 6 greater than 5. -/
theorem c3_witness :
    EntityManager.from_dict [sampleRecord] 1 = some (sampleLoadedManager, 6) ∧
    (5 : Nat) ∈ [sampleRecord].filterMap EntityRecord.id ∧
    (6 : Nat) ∈ createdIdsFrom ⟨sampleLoadedManager, 6⟩ [("B", "Villager")] ∧
    5 < 6 := by
  refine ⟨rfl, by decide, by decide, ?_⟩
  exact c3_id_continuity [sampleRecord] 1 sampleLoadedManager 6 5 rfl
    (by decide) [("B", "Villager")] 6 (by decide)

theorem ccfd_cases (cr : CompRecord) :
    (∃ c, create_component_from_dict cr = ParseResult.ok c ∧
      record_tag_type cr = some c.component_type) ∨
    (create_component_from_dict cr = ParseResult.perr) ∨
    (create_component_from_dict cr = ParseResult.skip ∧
      record_tag_type cr = none) := by
  unfold create_component_from_dict record_tag_type
  cases hg : dictGet cr "type" with
  | none => exact Or.inr (Or.inr ⟨rfl, rfl⟩)
  | some v =>
      cases v with
      | jstr tag =>
          by_cases h1 : tag = "position"
          · simp only [h1, if_pos rfl]
            exact Or.inl ⟨_, rfl, rfl⟩
          · by_cases h2 : tag = "health"
            · simp only [if_neg h1, h2, if_pos rfl]
              exact Or.inl ⟨_, rfl, rfl⟩
            · by_cases h3 : tag = "inventory"
              · simp only [if_neg h1, if_neg h2, h3, if_pos rfl]
                exact Or.inl ⟨_, rfl, rfl⟩
              · by_cases h4 : tag = "currency"
                · simp only [if_neg h1, if_neg h2, if_neg h3, h4, if_pos rfl]
                  exact Or.inl ⟨_, rfl, rfl⟩
                · by_cases h5 : tag = "relationship"
                  · simp only [if_neg h1, if_neg h2, if_neg h3, if_neg h4, h5,
                      if_pos rfl]
                    cases hr : RelationshipComponent.from_dict cr with
                    | some c => exact Or.inl ⟨_, rfl, rfl⟩
                    | none => exact Or.inr (Or.inl rfl)
                  · by_cases h6 : tag = "needs"
                    · simp only [if_neg h1, if_neg h2, if_neg h3, if_neg h4,
                        if_neg h5, h6, if_pos rfl]
                      exact Or.inl ⟨_, rfl, rfl⟩
                    · by_cases h7 : tag = "schedule"
                      · simp only [if_neg h1, if_neg h2, if_neg h3, if_neg h4,
                          if_neg h5, if_neg h6, h7, if_pos rfl]
                        exact Or.inl ⟨_, rfl, rfl⟩
                      · by_cases h8 : tag = "occupation"
                        · simp only [if_neg h1, if_neg h2, if_neg h3, if_neg h4,
                            if_neg h5, if_neg h6, if_neg h7, h8, if_pos rfl]
                          exact Or.inl ⟨_, rfl, rfl⟩
                        · by_cases h9 : tag = "memory"
                          · simp only [if_neg h1, if_neg h2, if_neg h3,
                              if_neg h4, if_neg h5, if_neg h6, if_neg h7,
                              if_neg h8, h9, if_pos rfl]
                            exact Or.inl ⟨_, rfl, rfl⟩
                          · by_cases h10 : tag = "goal"
                            · simp only [if_neg h1, if_neg h2, if_neg h3,
                                if_neg h4, if_neg h5, if_neg h6, if_neg h7,
                                if_neg h8, if_neg h9, h10, if_pos rfl]
                              exact Or.inl ⟨_, rfl, rfl⟩
                            · simp only [if_neg h1, if_neg h2, if_neg h3,
                                if_neg h4, if_neg h5, if_neg h6, if_neg h7,
                                if_neg h8, if_neg h9, if_neg h10]
                              exact Or.inr (Or.inr ⟨by trivial, by trivial⟩)
      | jnull => exact Or.inr (Or.inr ⟨rfl, rfl⟩)
      | jbool b => exact Or.inr (Or.inr ⟨rfl, rfl⟩)
      | jint n => exact Or.inr (Or.inr ⟨rfl, rfl⟩)
      | jnum q => exact Or.inr (Or.inr ⟨rfl, rfl⟩)
      | jarr xs => exact Or.inr (Or.inr ⟨rfl, rfl⟩)
      | jobj fs => exact Or.inr (Or.inr ⟨rfl, rfl⟩)

theorem add_component_presence (e : Entity) (c : Component) (ct : ComponentType) :
    (dictGet (e.add_component c).2.components ct).isSome = true ↔
      ((dictGet e.components ct).isSome = true ∨ ct = c.component_type) := by
  unfold Entity.add_component
  by_cases h : (dictGet e.components c.component_type).isSome = true
  · rw [if_pos h]
    constructor
    · exact fun ha => Or.inl ha
    · rintro (ha | rfl)
      · exact ha
      · exact h
  · rw [if_neg h]
    show (dictGet (dictSet e.components c.component_type
        (c.set_entity_id e.id)) ct).isSome = true ↔ _
    rw [dictGet_dictSet]
    by_cases hct : c.component_type = ct
    · simp [hct]
    · rw [if_neg hct]
      constructor
      · exact fun ha => Or.inl ha
      · rintro (ha | rfl)
        · exact ha
        · exact absurd rfl hct

theorem addComponents_presence (rs : List CompRecord) (e : Entity)
    (hok : ∀ cr ∈ rs, (create_component_from_dict cr).is_err = false) :
    ∃ e2, addComponentsFromRecords e rs = some e2 ∧ e2.id = e.id ∧
      ∀ ct, (dictGet e2.components ct).isSome = true ↔
        ((dictGet e.components ct).isSome = true ∨
          ∃ cr ∈ rs, record_tag_type cr = some ct) := by
  induction rs generalizing e with
  | nil => exact ⟨e, rfl, rfl, by simp⟩
  | cons cr rest ih =>
      have hok1 := hok cr (List.mem_cons_self _ _)
      have hokr : ∀ x ∈ rest, (create_component_from_dict x).is_err = false :=
        fun x hx => hok x (List.mem_cons_of_mem _ hx)
      rcases ccfd_cases cr with ⟨c, hc, htag⟩ | hperr | ⟨hskip, htag⟩
      · simp only [addComponentsFromRecords, hc]
        obtain ⟨e2, hh1, hid, hh2⟩ := ih (e.add_component c).2 hokr
        refine ⟨e2, hh1, hid.trans (add_component_id e c), fun ct => ?_⟩
        rw [hh2 ct, add_component_presence e c ct]
        simp only [List.mem_cons]
        constructor
        · rintro ((ha | rfl) | ⟨x, hx, hx2⟩)
          · exact Or.inl ha
          · exact Or.inr ⟨cr, Or.inl rfl, htag⟩
          · exact Or.inr ⟨x, Or.inr hx, hx2⟩
        · rintro (ha | ⟨x, hx | hx, hx2⟩)
          · exact Or.inl (Or.inl ha)
          · subst hx
            rw [htag] at hx2
            cases hx2
            exact Or.inl (Or.inr rfl)
          · exact Or.inr ⟨x, hx, hx2⟩
      · rw [hperr] at hok1
        exact absurd hok1 (by decide)
      · simp only [addComponentsFromRecords, hskip]
        obtain ⟨e2, hh1, hid, hh2⟩ := ih e hokr
        refine ⟨e2, hh1, hid, fun ct => ?_⟩
        rw [hh2 ct]
        simp only [List.mem_cons]
        constructor
        · rintro (ha | ⟨x, hx, hx2⟩)
          · exact Or.inl ha
          · exact Or.inr ⟨x, Or.inr hx, hx2⟩
        · rintro (ha | ⟨x, hx | hx, hx2⟩)
          · exact Or.inl ha
          · subst hx
            rw [htag] at hx2
            cases hx2
          · exact Or.inr ⟨x, hx, hx2⟩

/-- C7: when no component record makes a deserializer raise, `Entity.from_dict`
constructs the entity, and the component types present on it are exactly the
registry types of the records: a record with an unregistered tag is silently
skipped (the entity is still built and that component is simply absent), and
every record with a registered tag is restored. -/
theorem c7_unknown_tags_skipped (r : EntityRecord) (nid : Nat)
    (hok : ∀ cr ∈ r.components, (create_component_from_dict cr).is_err = false) :
    ∃ e, (Entity.from_dict r nid).1 = some e ∧
      ∀ ct, (dictGet e.components ct).isSome = true ↔
        ∃ cr ∈ r.components, record_tag_type cr = some ct := by
  obtain ⟨e2, hh1, hid, hh2⟩ := addComponents_presence r.components
    { id := r.id.getD nid, name := r.name.getD "Unnamed Entity",
      entity_type := r.entity_type.getD "Generic", components := [],
      active := r.active.getD true } hok
  refine ⟨e2, ?_, fun ct => ?_⟩
  · simp only [Entity.from_dict, Entity.make]
    exact hh1
  · rw [hh2 ct]
    simp [dictGet]

/-- Witness for C7 on a record list with a registered tag, an unregistered
`ai` tag and an unknown `teleport` tag. -/
theorem c7_witness :
    (∀ cr ∈ sampleEntityRecord.components,
      (create_component_from_dict cr).is_err = false) ∧
    (∃ e, (Entity.from_dict sampleEntityRecord 3).1 = some e ∧
      ∀ ct, (dictGet e.components ct).isSome = true ↔
        ∃ cr ∈ sampleEntityRecord.components,
          record_tag_type cr = some ct) :=
  ⟨by decide, c7_unknown_tags_skipped sampleEntityRecord 3 (by decide)⟩

theorem dictGet_eq_none_iff {κ α : Type} [DecidableEq κ]
    (m : List (κ × α)) (k : κ) :
    dictGet m k = none ↔ k ∉ m.map Prod.fst := by
  induction m with
  | nil => simp [dictGet]
  | cons hd tl ih =>
      obtain ⟨k1, v1⟩ := hd
      by_cases h : k1 = k
      · subst h
        simp [dictGet]
      · simp [dictGet, h, ih, Ne.symm h]

theorem mapFst_dictSet_of_mem {κ α : Type} [DecidableEq κ]
    (m : List (κ × α)) (k : κ) (v : α) (h : k ∈ m.map Prod.fst) :
    (dictSet m k v).map Prod.fst = m.map Prod.fst := by
  induction m with
  | nil => simp at h
  | cons hd tl ih =>
      obtain ⟨k1, v1⟩ := hd
      by_cases h1 : k1 = k
      · subst h1
        simp [dictSet]
      · simp only [List.map_cons, List.mem_cons] at h
        rcases h with h | h
        · exact absurd h.symm h1
        · simp [dictSet, h1, ih h]

theorem dictSet_append_last {κ α : Type} [DecidableEq κ]
    (m : List (κ × α)) (k : κ) (v0 v : α) (h : dictGet m k = none) :
    dictSet (m ++ [(k, v0)]) k v = m ++ [(k, v)] := by
  induction m with
  | nil => simp [dictSet]
  | cons hd tl ih =>
      obtain ⟨k1, v1⟩ := hd
      simp only [dictGet] at h
      by_cases h1 : k1 = k
      · rw [if_pos h1] at h
        cases h
      · rw [if_neg h1] at h
        simp [dictSet, h1, ih h]

theorem join_count_dictSet (bt : List (String × List Nat)) (t : String)
    (ids v : List Nat) (h : dictGet bt t = some ids) (y : Nat) :
    (((dictSet bt t v).map Prod.snd).flatten).count y + ids.count y =
      ((bt.map Prod.snd).flatten).count y + v.count y := by
  induction bt with
  | nil => cases h
  | cons hd tl ih =>
      obtain ⟨t1, ids1⟩ := hd
      simp only [dictGet] at h
      by_cases h1 : t1 = t
      · rw [if_pos h1] at h
        cases h
        simp only [dictSet, if_pos h1, List.map_cons, List.flatten_cons,
          List.count_append]
        omega
      · rw [if_neg h1] at h
        simp only [dictSet, if_neg h1, List.map_cons, List.flatten_cons,
          List.count_append]
        have := ih h
        omega

theorem join_count_append (bt : List (String × List Nat)) (t : String)
    (l : List Nat) (y : Nat) :
    (((bt ++ [(t, l)]).map Prod.snd).flatten).count y =
      ((bt.map Prod.snd).flatten).count y + l.count y := by
  rw [List.map_append, List.flatten_append]
  simp [List.count_append]

theorem entry_lookup_of_nodup (bt : List (String × List Nat))
    (hn : (bt.map Prod.fst).Nodup) (t : String) (ids : List Nat)
    (hm : (t, ids) ∈ bt) : dictGet bt t = some ids := by
  induction bt with
  | nil => cases hm
  | cons hd tl ih =>
      obtain ⟨t1, ids1⟩ := hd
      simp only [List.map_cons, List.nodup_cons] at hn
      rcases List.mem_cons.mp hm with h | h
      · cases h
        simp [dictGet]
      · have ht1 : ¬ (t1 = t) := by
          intro hq
          subst hq
          exact hn.1 (List.mem_map.mpr ⟨(t1, ids), h, rfl⟩)
        simp only [dictGet, if_neg ht1]
        exact ih hn.2 h

theorem entry_count_le_join (bt : List (String × List Nat)) (t : String)
    (ids : List Nat) (hm : (t, ids) ∈ bt) (y : Nat) :
    ids.count y ≤ ((bt.map Prod.snd).flatten).count y := by
  induction bt with
  | nil => cases hm
  | cons hd tl ih =>
      obtain ⟨t1, ids1⟩ := hd
      simp only [List.map_cons, List.flatten_cons, List.count_append]
      rcases List.mem_cons.mp hm with h | h
      · cases h
        omega
      · have := ih h
        omega

theorem join_count_pos_entry (bt : List (String × List Nat)) (y : Nat)
    (h : 0 < ((bt.map Prod.snd).flatten).count y) :
    ∃ t ids, (t, ids) ∈ bt ∧ y ∈ ids := by
  have hmem : y ∈ (bt.map Prod.snd).flatten := List.count_pos_iff.mp h
  rw [List.mem_flatten] at hmem
  obtain ⟨l, hl, hy⟩ := hmem
  rw [List.mem_map] at hl
  obtain ⟨⟨t, ids⟩, hp, rfl⟩ := hl
  exact ⟨t, ids, hp, hy⟩

theorem add_entity_mem (m : EntityManager) (e : Entity)
    (hx : (dictGet m.entities e.id).isSome = true) :
    (m.add_entity e).2 = m := by
  unfold EntityManager.add_entity
  rw [if_pos hx]

theorem add_entity_known_type (m : EntityManager) (e : Entity)
    (hx : dictGet m.entities e.id = none) (ids : List Nat)
    (hids : dictGet m.entities_by_type e.entity_type = some ids) :
    (m.add_entity e).2 =
      { entities := m.entities ++ [(e.id, e)],
        entities_by_type :=
          dictSet m.entities_by_type e.entity_type (ids ++ [e.id]) } := by
  unfold EntityManager.add_entity
  simp [hx, hids]

theorem add_entity_new_type (m : EntityManager) (e : Entity)
    (hx : dictGet m.entities e.id = none)
    (hbt : dictGet m.entities_by_type e.entity_type = none) :
    (m.add_entity e).2 =
      { entities := m.entities ++ [(e.id, e)],
        entities_by_type :=
          m.entities_by_type ++ [(e.entity_type, [e.id])] } := by
  have hset := fun (v : List Nat) =>
    dictSet_append_last m.entities_by_type e.entity_type [] v hbt
  unfold EntityManager.add_entity
  simp [hx, hbt, dictGet_append, dictGet, hset]

theorem remove_entity_none (m : EntityManager) (eid : Nat)
    (h : dictGet m.entities eid = none) : (m.remove_entity eid).2 = m := by
  unfold EntityManager.remove_entity
  rw [h]

theorem remove_entity_some (m : EntityManager) (eid : Nat) (e : Entity)
    (ids : List Nat) (he : dictGet m.entities eid = some e)
    (hids : dictGet m.entities_by_type e.entity_type = some ids)
    (hin : eid ∈ ids) :
    (m.remove_entity eid).2 =
      { entities := dictDel m.entities eid,
        entities_by_type :=
          dictSet m.entities_by_type e.entity_type (ids.erase eid) } := by
  unfold EntityManager.remove_entity
  rw [he]
  simp [hids, hin]

theorem EMInv_init : EMInv EntityManager.init := by
  refine ⟨List.nodup_nil, fun id => ?_, fun t ids id hget _ => ?_⟩
  · simp [EntityManager.init, dictGet]
  · simp [EntityManager.init, dictGet] at hget

theorem EMInv_clear (m : EntityManager) : EMInv m.clear := by
  refine ⟨List.nodup_nil, fun id => ?_, fun t ids id hget _ => ?_⟩
  · simp [EntityManager.clear, dictGet]
  · simp [EntityManager.clear, dictGet] at hget

theorem EMInv_add (m : EntityManager) (e : Entity) (h : EMInv m) :
    EMInv (m.add_entity e).2 := by
  obtain ⟨hn, ha, hb⟩ := h
  cases hxn : dictGet m.entities e.id with
  | some v =>
      rw [add_entity_mem m e (by rw [hxn]; rfl)]
      exact ⟨hn, ha, hb⟩
  | none =>
      cases hbt : dictGet m.entities_by_type e.entity_type with
      | some ids =>
          rw [add_entity_known_type m e hxn ids hbt]
          have hmem : e.entity_type ∈ m.entities_by_type.map Prod.fst := by
            by_contra hc
            rw [← dictGet_eq_none_iff] at hc
            rw [hc] at hbt
            cases hbt
          refine ⟨?_, fun y => ?_, fun t ids2 y hget hy => ?_⟩
          · simpa [mapFst_dictSet_of_mem _ _ _ hmem] using hn
          · show List.count y (List.map Prod.snd
                (dictSet m.entities_by_type e.entity_type
                  (ids ++ [e.id]))).flatten = _
            have hcount := join_count_dictSet m.entities_by_type e.entity_type
              ids (ids ++ [e.id]) hbt y
            rw [List.count_append] at hcount
            have hold := ha y
            by_cases hy : y = e.id
            · subst hy
              rw [hxn] at hold
              simp only [Option.isSome_none] at hold
              rw [if_neg Bool.false_ne_true] at hold
              have hget2 : dictGet (m.entities ++ [(e.id, e)]) e.id = some e := by
                rw [dictGet_append, hxn]
                simp [dictGet]
              show _ = (if (dictGet (m.entities ++ [(e.id, e)]) e.id).isSome = true
                then 1 else 0)
              rw [hget2]
              have hfin : (if (some e : Option Entity).isSome = true
                  then 1 else 0) = 1 := rfl
              rw [hfin]
              have hone : List.count e.id [e.id] = 1 := by simp
              omega
            · have hzero : List.count y [e.id] = 0 := by
                rw [List.count_eq_zero]
                simp [hy]
              have hget2 : dictGet (m.entities ++ [(e.id, e)]) y =
                  dictGet m.entities y := by
                rw [dictGet_append]
                cases hq : dictGet m.entities y with
                | some w => rfl
                | none =>
                    have hne : ¬ (e.id = y) := fun hq2 => hy hq2.symm
                    simp [dictGet, hne]
              show _ = (if (dictGet (m.entities ++ [(e.id, e)]) y).isSome = true
                then 1 else 0)
              rw [hget2, ← hold]
              omega
          · simp only [] at hget
            rw [dictGet_dictSet] at hget
            show ∃ e0, dictGet (m.entities ++ [(e.id, e)]) y = some e0 ∧
              e0.entity_type = t
            by_cases ht : e.entity_type = t
            · subst ht
              rw [if_pos rfl] at hget
              have hids2 : ids2 = ids ++ [e.id] :=
                (Option.some_inj.mp hget).symm
              subst hids2
              rcases List.mem_append.mp hy with hy2 | hy2
              · obtain ⟨e0, he0, ht0⟩ := hb _ _ _ hbt hy2
                refine ⟨e0, ?_, ht0⟩
                rw [dictGet_append, he0]
              · simp only [List.mem_singleton] at hy2
                subst hy2
                refine ⟨e, ?_, rfl⟩
                rw [dictGet_append, hxn]
                simp [dictGet]
            · rw [if_neg ht] at hget
              obtain ⟨e0, he0, ht0⟩ := hb _ _ _ hget hy
              refine ⟨e0, ?_, ht0⟩
              rw [dictGet_append, he0]
      | none =>
          rw [add_entity_new_type m e hxn hbt]
          have hnotmem : e.entity_type ∉ m.entities_by_type.map Prod.fst :=
            (dictGet_eq_none_iff _ _).mp hbt
          refine ⟨?_, fun y => ?_, fun t ids2 y hget hy => ?_⟩
          · show (List.map Prod.fst
                (m.entities_by_type ++ [(e.entity_type, [e.id])])).Nodup
            simp only [List.map_append, List.map_cons, List.map_nil]
            rw [List.nodup_append]
            refine ⟨hn, List.nodup_singleton _, ?_⟩
            intro a ha2 hb2
            simp only [List.mem_singleton] at hb2
            subst hb2
            exact hnotmem ha2
          · show List.count y (List.map Prod.snd
                (m.entities_by_type ++ [(e.entity_type, [e.id])])).flatten = _
            rw [join_count_append]
            have hold := ha y
            by_cases hy : y = e.id
            · subst hy
              rw [hxn] at hold
              simp only [Option.isSome_none] at hold
              rw [if_neg Bool.false_ne_true] at hold
              have hget2 : dictGet (m.entities ++ [(e.id, e)]) e.id = some e := by
                rw [dictGet_append, hxn]
                simp [dictGet]
              show _ = (if (dictGet (m.entities ++ [(e.id, e)]) e.id).isSome = true
                then 1 else 0)
              rw [hget2]
              have hfin : (if (some e : Option Entity).isSome = true
                  then 1 else 0) = 1 := rfl
              rw [hfin]
              have hone : List.count e.id [e.id] = 1 := by simp
              omega
            · have hzero : List.count y [e.id] = 0 := by
                rw [List.count_eq_zero]
                simp [hy]
              have hget2 : dictGet (m.entities ++ [(e.id, e)]) y =
                  dictGet m.entities y := by
                rw [dictGet_append]
                cases hq : dictGet m.entities y with
                | some w => rfl
                | none =>
                    have hne : ¬ (e.id = y) := fun hq2 => hy hq2.symm
                    simp [dictGet, hne]
              show _ = (if (dictGet (m.entities ++ [(e.id, e)]) y).isSome = true
                then 1 else 0)
              rw [hget2, ← hold]
              omega
          · simp only [] at hget
            rw [dictGet_append] at hget
            show ∃ e0, dictGet (m.entities ++ [(e.id, e)]) y = some e0 ∧
              e0.entity_type = t
            cases hg2 : dictGet m.entities_by_type t with
            | some ids3 =>
                rw [hg2] at hget
                have hids2 : ids2 = ids3 := (Option.some_inj.mp hget).symm
                subst hids2
                obtain ⟨e0, he0, ht0⟩ := hb _ _ _ hg2 hy
                refine ⟨e0, ?_, ht0⟩
                rw [dictGet_append, he0]
            | none =>
                rw [hg2] at hget
                simp only [dictGet] at hget
                by_cases ht : e.entity_type = t
                · rw [if_pos ht] at hget
                  have hids2 : ids2 = [e.id] := (Option.some_inj.mp hget).symm
                  subst hids2
                  simp only [List.mem_singleton] at hy
                  subst hy
                  refine ⟨e, ?_, ht⟩
                  rw [dictGet_append, hxn]
                  simp [dictGet]
                · rw [if_neg ht] at hget
                  cases hget

theorem EMInv_remove (m : EntityManager) (eid : Nat) (h : EMInv m) :
    EMInv (m.remove_entity eid).2 := by
  obtain ⟨hn, ha, hb⟩ := h
  cases he : dictGet m.entities eid with
  | none =>
      rw [remove_entity_none m eid he]
      exact ⟨hn, ha, hb⟩
  | some e =>
      have hpos : 0 < List.count eid
          (List.map Prod.snd m.entities_by_type).flatten := by
        rw [ha eid, he]
        norm_num
      obtain ⟨t1, ids1, hent, hin1⟩ :=
        join_count_pos_entry m.entities_by_type eid hpos
      have hget1 : dictGet m.entities_by_type t1 = some ids1 :=
        entry_lookup_of_nodup _ hn _ _ hent
      obtain ⟨e0, he0, ht0⟩ := hb _ _ _ hget1 hin1
      have he0e : e0 = e := Option.some_inj.mp (he0.symm.trans he)
      have ht1 : t1 = e.entity_type := by
        rw [he0e] at ht0
        exact ht0.symm
      subst ht1
      have hcnt1 : List.count eid ids1 = 1 := by
        have hle := entry_count_le_join m.entities_by_type _ _ hent eid
        have htot : List.count eid
            (List.map Prod.snd m.entities_by_type).flatten = 1 := by
          rw [ha eid, he]
          rfl
        have hge : 0 < List.count eid ids1 := List.count_pos_iff.mpr hin1
        omega
      have hmem : e.entity_type ∈ m.entities_by_type.map Prod.fst := by
        by_contra hc
        rw [← dictGet_eq_none_iff] at hc
        rw [hc] at hget1
        cases hget1
      rw [remove_entity_some m eid e ids1 he hget1 hin1]
      refine ⟨?_, fun y => ?_, fun t ids2 y hget hy => ?_⟩
      · show (List.map Prod.fst (dictSet m.entities_by_type e.entity_type
            (ids1.erase eid))).Nodup
        simpa [mapFst_dictSet_of_mem _ _ _ hmem] using hn
      · show List.count y (List.map Prod.snd
            (dictSet m.entities_by_type e.entity_type
              (ids1.erase eid))).flatten = _
        have hcount := join_count_dictSet m.entities_by_type e.entity_type
          ids1 (ids1.erase eid) hget1 y
        have hold := ha y
        by_cases hy : y = eid
        · subst hy
          rw [he] at hold
          have h1 : (if (some e : Option Entity).isSome = true
              then 1 else 0) = 1 := rfl
          rw [h1] at hold
          have herase : List.count y (ids1.erase y) =
              List.count y ids1 - 1 := List.count_erase_self y ids1
          have hget2 : dictGet (dictDel m.entities y) y = none := by
            rw [dictGet_dictDel]
            simp
          show _ = (if (dictGet (dictDel m.entities y) y).isSome = true
            then 1 else 0)
          rw [hget2]
          have h2 : (if (none : Option Entity).isSome = true
              then 1 else 0) = 0 := rfl
          rw [h2]
          omega
        · have herase : List.count y (ids1.erase eid) =
              List.count y ids1 := List.count_erase_of_ne hy ids1
          have hget2 : dictGet (dictDel m.entities eid) y =
              dictGet m.entities y := by
            rw [dictGet_dictDel, if_neg (fun hc => hy hc.symm)]
          show _ = (if (dictGet (dictDel m.entities eid) y).isSome = true
            then 1 else 0)
          rw [hget2, ← hold]
          omega
      · simp only [] at hget
        rw [dictGet_dictSet] at hget
        show ∃ e1, dictGet (dictDel m.entities eid) y = some e1 ∧
          e1.entity_type = t
        by_cases ht : e.entity_type = t
        · subst ht
          rw [if_pos rfl] at hget
          have hids2 : ids2 = ids1.erase eid := (Option.some_inj.mp hget).symm
          subst hids2
          have hymem : y ∈ ids1 := List.mem_of_mem_erase hy
          obtain ⟨e1, he1, ht1b⟩ := hb _ _ _ hget1 hymem
          have hyne : ¬ (y = eid) := by
            intro hq
            subst hq
            have hz : List.count y (ids1.erase y) = 0 := by
              rw [List.count_erase_self y ids1]
              omega
            rw [List.count_eq_zero] at hz
            exact hz hy
          refine ⟨e1, ?_, ht1b⟩
          rw [dictGet_dictDel, if_neg (fun hc => hyne hc.symm)]
          exact he1
        · rw [if_neg ht] at hget
          obtain ⟨e1, he1, ht1b⟩ := hb _ _ _ hget hy
          have hyne : ¬ (y = eid) := by
            intro hq
            subst hq
            have he1e : e1 = e := Option.some_inj.mp (he1.symm.trans he)
            rw [he1e] at ht1b
            exact ht (ht1b)
          refine ⟨e1, ?_, ht1b⟩
          rw [dictGet_dictDel, if_neg (fun hc => hyne hc.symm)]
          exact he1

theorem EMInv_reachable (m : EntityManager) (h : ReachableEM m) : EMInv m := by
  induction h with
  | empty => exact EMInv_init
  | create m nid nm ty _ ih => exact EMInv_add m (Entity.make nid nm ty) ih
  | add m e _ ih => exact EMInv_add m e ih
  | remove m eid _ ih => exact EMInv_remove m eid ih
  | clear m _ => exact EMInv_clear m

/-- C10: in every manager reachable from a fresh manager by `create_entity`,
`add_entity`, `remove_entity` and `clear`, the ids appearing in the
`entities_by_type` index (across all types) are exactly the keys of the
primary `entities` dict, each listed exactly once, under the `entity_type`
of the entity it refers to. -/
theorem c10_type_index_consistent (m : EntityManager) (hm : ReachableEM m) :
    (∀ id : Nat, ((m.entities_by_type.map Prod.snd).flatten).count id =
      (if (dictGet m.entities id).isSome = true then 1 else 0)) ∧
    (∀ t ids id, dictGet m.entities_by_type t = some ids → id ∈ ids →
      ∃ e, dictGet m.entities id = some e ∧ e.entity_type = t) :=
  ⟨(EMInv_reachable m hm).2.1, (EMInv_reachable m hm).2.2⟩

/-- Witness for C10 on the manager obtained by adding one entity (id 5,
type Generic) to a fresh manager. -/
theorem c10_witness :
    ((((EntityManager.init.add_entity
        sampleLoadedEntity).2.entities_by_type.map Prod.snd).flatten).count 5 =
      if (dictGet (EntityManager.init.add_entity
        sampleLoadedEntity).2.entities 5).isSome = true then 1 else 0) ∧
    (∃ e, dictGet (EntityManager.init.add_entity
        sampleLoadedEntity).2.entities 5 = some e ∧
      e.entity_type = "Generic") := by
  have h := c10_type_index_consistent _
    (ReachableEM.add EntityManager.init sampleLoadedEntity ReachableEM.empty)
  exact ⟨h.1 5, h.2 "Generic" [5] 5 rfl (by decide)⟩

end Game